import Mathlib

/-!
Verification development for the vcardgrabber repository
(`src/vcard_grabber.py`).

The script scrapes a phone-directory site: it pages through search
results, downloads one vCard per detail page, moves vCards without an
e-mail address into a `keine_email` subfolder, and generates CSV
snapshots from the vCard files.

The Python code is shallowly embedded below.  String primitives are
re-implemented over `List Char` so that every definition evaluates by
`decide`/`rfl`:

* `parse_vcard` (lines 217-286)  →  `processLine`, `parseVCardLines`,
  `parseVCardFile`
* `move_vcards_without_email` (157-215)  →  `moveGo`, `movePhase`
* the pagination loop embedded in `generate_csv_from_vcards`
  (326-356)  →  `pagesLoop`, `runSearch`
* the per-detail-record loop (361-403)  →  `processGo`
* filename derivation (382-384)  →  `filenameOf`
* CSV generation (295-308)  →  `csvText`, `masterCsv`
* one full run of the embedded pipeline  →  `fullRun`

The month-keyed rate-quota store described by the specification has no
counterpart in `src/`; it is modelled from the spec at the end of the
definitions section (`QuotaState`, `tryConsume`, `quotaWalk`).
-/

/-- Whitespace test used by the model of Python's `str.strip`. -/
def isSpc (c : Char) : Bool :=
  c == ' ' || c == '\t' || c == '\n' || c == '\r'

/-- Model of Python `str.strip()`: drop whitespace at both ends. -/
def sTrim (s : String) : String :=
  ⟨((s.data.dropWhile isSpc).reverse.dropWhile isSpc).reverse⟩

/-- Model of Python `str.upper()` (ASCII letters, as in the vCard tags). -/
def sUpper (s : String) : String :=
  ⟨s.data.map Char.toUpper⟩

/-- Model of Python `str.lower()` (ASCII letters). -/
def sLower (s : String) : String :=
  ⟨s.data.map Char.toLower⟩

/-- Model of Python `str.startswith`. -/
def sStarts (s tag : String) : Bool :=
  tag.data.isPrefixOf s.data

/-- Model of Python `str.endswith`. -/
def sEnds (s tag : String) : Bool :=
  tag.data.isSuffixOf s.data

/-- Split a character list at every occurrence of `c`
(model of Python `str.split(c)`). -/
def splitCh (c : Char) : List Char → List (List Char)
  | [] => [[]]
  | x :: t =>
    match splitCh c t with
    | [] => [[x]]
    | h :: r => if x == c then [] :: h :: r else (x :: h) :: r

/-- Join character-list segments with the separator `c`
(inverse of `splitCh`). -/
def joinCh (c : Char) : List (List Char) → List Char
  | [] => []
  | [x] => x
  | x :: xs => x ++ c :: joinCh c xs

/-- Split a string at every occurrence of a character. -/
def sSplit (c : Char) (s : String) : List String :=
  (splitCh c s.data).map (fun l => ⟨l⟩)

/-- Does `s` contain the (non-empty) pattern `pat` as a substring?
Model of Python's `pat in s`. -/
def hasSub (pat : List Char) : List Char → Bool
  | [] => pat.isEmpty
  | x :: t => pat.isPrefixOf (x :: t) || hasSub pat t

/-- Everything after the first `':'`, i.e. `line.split(":", 1)[1]`;
empty when the line has no colon. -/
def afterColon (s : String) : String :=
  match splitCh ':' s.data with
  | [] => ""
  | [_] => ""
  | _ :: rest => ⟨joinCh ':' rest⟩

/-- Join a list of strings with a separator string. -/
def joinWith (sep : String) : List String → String
  | [] => ""
  | [x] => x
  | x :: xs => x ++ sep ++ joinWith sep xs

/-- `", ".join` of the non-empty address parts — the assembly at line 259:
`data["Address"] = ", ".join([p for p in adr_parts if p])`. -/
def joinAdrParts (ps : List String) : String :=
  joinWith ", " (ps.filter (fun p => !(p == "")))

/-- Last element of a list, with a default for the empty list. -/
def lastD {α : Type} (l : List α) (d : α) : α :=
  match l with
  | [] => d
  | x :: t => lastD t x

/-- `os.path.basename` for POSIX paths: everything after the last `'/'`. -/
def basenameOf (p : String) : String :=
  ⟨lastD (splitCh '/' p.data) []⟩

/-- Filename derivation at lines 382-384:
`urllib.parse.urlparse(vcard_link)` strips fragment and query, and
`os.path.basename(parsed.path)` keeps the last path segment.  The links
in question are server-relative (`/tel/vcard/...`), so the path is the
part before `'#'` and `'?'`.  No character is replaced and no extension
fallback exists in the source. -/
def filenameOf (u : String) : String :=
  ⟨lastD (splitCh '/' (((splitCh '#' u.data).headD []).takeWhile (fun c => !(c == '?')))) []⟩

/-- Classification test of `move_vcards_without_email` (line 187):
`"email" not in content.lower()` decides the move, i.e. a file counts as
"has e-mail" iff its whole content contains the substring `email`,
case-insensitively. -/
def hasEmailContent (c : String) : Bool :=
  hasSub "email".data (c.data.map Char.toLower)

/-- Only files whose name ends in `.vcf` (case-insensitively) are moved
and exported (lines 182 and 297). -/
def isVcf (fn : String) : Bool :=
  sEnds (sLower fn) ".vcf"

/-- The record produced by `parse_vcard`: a dictionary with exactly the
eight keys `Filename`, `Full Name`, `Organization`, `Address`,
`Telephone`, `Email`, `Role`, `URL`. -/
structure VRecord where
  filename : String
  fullName : String
  organization : String
  address : String
  telephone : String
  email : String
  role : String
  url : String
deriving DecidableEq, Repr

/-- The initial dictionary of `parse_vcard` (lines 235-244): every field
except `Filename` defaults to the empty string. -/
def defaultVRecord (fname : String) : VRecord :=
  ⟨fname, "", "", "", "", "", "", ""⟩

/-- `line.upper().startswith(tag)` on the stripped line — the guard of
each branch of `parse_vcard`'s field dispatch. -/
def fieldHit (tag : String) (raw : String) : Bool :=
  sStarts (sUpper (sTrim raw)) tag

/-- One iteration of `parse_vcard`'s line loop (lines 247-283): an
`elif` chain on the upper-cased, stripped line.  `TEL` and `EMAIL`
values accumulate with `", "`; `ADR` joins its non-empty `;`-separated
parts with `", "`. -/
def processLine (d : VRecord) (raw : String) : VRecord :=
  let line := sTrim raw
  if fieldHit "FN:" raw then { d with fullName := sTrim (afterColon line) }
  else if fieldHit "ORG:" raw then { d with organization := sTrim (afterColon line) }
  else if fieldHit "ADR" raw then
    (if line.data.contains ':' then
      { d with address := joinAdrParts (sSplit ';' (sTrim (afterColon line))) }
     else d)
  else if fieldHit "TEL" raw then
    (if line.data.contains ':' then
      (let tel := sTrim (afterColon line)
       if d.telephone = "" then { d with telephone := tel }
       else { d with telephone := d.telephone ++ ", " ++ tel })
     else d)
  else if fieldHit "EMAIL" raw then
    (if line.data.contains ':' then
      (let em := sTrim (afterColon line)
       if d.email = "" then { d with email := em }
       else { d with email := d.email ++ ", " ++ em })
     else d)
  else if fieldHit "ROLE:" raw then
    (if line.data.contains ':' then { d with role := sTrim (afterColon line) } else d)
  else if fieldHit "URL:" raw then
    (if line.data.contains ':' then { d with url := sTrim (afterColon line) } else d)
  else d

/-- The line loop of `parse_vcard` over a list of lines. -/
def parseVCardLines (d : VRecord) (ls : List String) : VRecord :=
  ls.foldl processLine d

/-- `parse_vcard(filepath)` where the file content is given as
`Option String` (`none` = the file could not be read; the `except`
branch at lines 284-285 prints the error and the default dictionary is
returned). -/
def parseVCardFile (filepath : String) (content : Option String) : VRecord :=
  match content with
  | none => defaultVRecord (basenameOf filepath)
  | some c => parseVCardLines (defaultVRecord (basenameOf filepath)) (sSplit '\n' c)

/-- `parse_vcard` applied to a file of known name inside the folder, as
`generate_csv_from_vcards` does (lines 298-299). -/
def parseNamed (fn : String) (content : String) : VRecord :=
  parseVCardLines (defaultVRecord fn) (sSplit '\n' content)

/-- One page of search results as the pipeline sees it after the
out-of-scope HTML parsing: `extract_total_results` gives `total` and
`extract_detail_urls` gives `urls`. -/
structure PageData where
  total : Nat
  urls : List String
deriving DecidableEq, Repr

/-- Observable trace of the pagination loop: the page numbers passed to
`get_search_page`, in order, and the successfully fetched pages with
their detail URLs. -/
structure SearchRun where
  calls : List Nat
  pages : List (Nat × List String)
deriving DecidableEq, Repr

/-- The page loop at lines 350-356: every page number in the list is
fetched; a fetch failure (`fetch p = none`) is printed and the loop
`continue`s with the next page. -/
def pagesLoop (fetch : Nat → Option PageData) : List Nat → SearchRun → SearchRun
  | [], st => st
  | p :: rest, st =>
    match fetch p with
    | none => pagesLoop fetch rest { st with calls := st.calls ++ [p] }
    | some pd =>
      pagesLoop fetch rest
        { calls := st.calls ++ [p], pages := st.pages ++ [(p, pd.urls)] }

/-- `math.ceil(total / per_page)` for positive `per_page`. -/
def ceilDiv (a b : Nat) : Nat := (a + b - 1) / b

/-- The search driver (lines 326-356): fetch page 1 for the result
count, return early on failure, zero results, or an empty first page;
otherwise loop over the page numbers `1..ceil(total/per_page)` —
re-fetching page 1, so a complete run issues `ceil(total/per_page) + 1`
calls. -/
def runSearch (fetch : Nat → Option PageData) : SearchRun :=
  match fetch 1 with
  | none => { calls := [1], pages := [] }
  | some pd =>
    if pd.total = 0 then { calls := [1], pages := [] }
    else if pd.urls.length = 0 then { calls := [1], pages := [] }
    else pagesLoop fetch (List.range' 1 (ceilDiv pd.total pd.urls.length)) { calls := [1], pages := [] }

/-- On-disk state of one query/location folder: the vCard files in the
main folder and in `keine_email` (name, content), the entries of
`links.txt` and of `links_keine_email.txt` (filename, detail URL). -/
structure DiskState where
  main : List (String × String)
  keine : List (String × String)
  links : List (String × String)
  keineLinks : List (String × String)
deriving DecidableEq, Repr

/-- The filenames present in the main folder or in `keine_email` — the
existence test at line 387 checks both places. -/
def namesOf (s : DiskState) : List String :=
  s.main.map Prod.fst ++ s.keine.map Prod.fst

/-- The detail-record loop (lines 361-403).  `gD d` models fetching the
detail page `d` and extracting its vCard link (`none` = transport
failure, `some none` = no vCard link on the page); `dV v` models
`download_vcard` (`none` = transport failure).  Failures print and
`continue`; a failed download leaves no file and no `links.txt`
entry. -/
def processGo (gD : String → Option (Option String)) (dV : String → Option String) :
    List String → List String → DiskState → DiskState
  | [], _, s => s
  | d :: rest, proc, s =>
    if proc.contains d then processGo gD dV rest proc s
    else
      match gD d with
      | none => processGo gD dV rest (d :: proc) s
      | some none => processGo gD dV rest (d :: proc) s
      | some (some v) =>
        if (namesOf s).contains (filenameOf v) then processGo gD dV rest (d :: proc) s
        else
          match dV v with
          | none => processGo gD dV rest (d :: proc) s
          | some c =>
            processGo gD dV rest (d :: proc)
              { s with
                main := s.main ++ [(filenameOf v, c)],
                links := s.links ++ [(filenameOf v, d)] }

/-- A file is moved to `keine_email` iff its name ends in `.vcf` and its
content lacks the substring `email` (lines 181-190). -/
def shouldMove (f : String × String) : Bool :=
  isVcf f.1 && !(hasEmailContent f.2)

/-- The file-moving loop of `move_vcards_without_email`: returns the
files kept in the main folder and the files moved out, in folder
order. -/
def moveGo : List (String × String) → List (String × String) × List (String × String)
  | [] => ([], [])
  | f :: rest =>
    let r := moveGo rest
    if shouldMove f then (r.1, f :: r.2) else (f :: r.1, r.2)

/-- `move_vcards_without_email` (lines 157-215): move the e-mail-less
`.vcf` files into `keine_email`, then rewrite `links.txt` with the
entries whose file is (still) in the main folder and
`links_keine_email.txt` with those whose file is in `keine_email`
(an `elif`, so main-folder membership wins). -/
def movePhase (s : DiskState) : DiskState :=
  let r := moveGo s.main
  let mainN := r.1.map Prod.fst
  let keineAll := s.keine ++ r.2
  { main := r.1,
    keine := keineAll,
    links := s.links.filter (fun e => mainN.contains e.1),
    keineLinks :=
      s.links.filter (fun e => !(mainN.contains e.1) && (keineAll.map Prod.fst).contains e.1) }

/-- Minimal-quoting CSV field escaping as `csv.writer` performs it. -/
def csvField (f : String) : String :=
  if f.data.any (fun c => c == '"' || c == ',' || c == '\n' || c == '\r') then
    "\"" ++ ⟨(f.data.map (fun c => if c == '"' then "\"\"".data else [c])).flatten⟩ ++ "\""
  else f

/-- One CSV line with the writer's `\r\n` terminator. -/
def csvLine (cells : List String) : String :=
  joinWith "," (cells.map csvField) ++ "\r\n"

/-- The column values of one row, in the fixed field order of
line 301. -/
def rowCells (r : VRecord) : List String :=
  [r.filename, r.fullName, r.organization, r.address, r.telephone, r.email, r.role, r.url]

/-- `generate_csv_from_vcards` applied to a folder listing (lines
295-308): one row per `.vcf` file, written with a UTF-8 BOM
(`utf-8-sig`). -/
def csvText (files : List (String × String)) : String :=
  "﻿" ++
    csvLine ["Filename", "Full Name", "Organization", "Address", "Telephone", "Email", "Role", "URL"] ++
    String.join ((files.filter (fun f => isVcf f.1)).map (fun f => csvLine (rowCells (parseNamed f.1 f.2))))

/-- The master snapshot of a run: `vcards.csv`, generated from the main
folder (lines 413-414). -/
def masterCsv (s : DiskState) : String :=
  csvText s.main

/-- Flatten the detail URLs of the fetched pages in page order — the
order in which the nested loops visit them. -/
def detailsOfPages (pgs : List (Nat × List String)) : List String :=
  pgs.foldr (fun pg acc => pg.2 ++ acc) []

/-- One full run of the embedded pipeline against a fixed remote
(`pf` = search pages, `gD` = detail pages, `dV` = vCard downloads):
early return on a failed first fetch, zero results, or an empty first
page (nothing on disk changes); otherwise process every detail URL of
every fetched page, then move the e-mail-less vCards and rewrite the
link files.  The CSVs are regenerated from the resulting folders. -/
def fullRun (pf : Nat → Option PageData) (gD : String → Option (Option String))
    (dV : String → Option String) (s : DiskState) : DiskState :=
  match pf 1 with
  | none => s
  | some pd =>
    if pd.total = 0 then s
    else if pd.urls.length = 0 then s
    else
      movePhase (processGo gD dV
        (detailsOfPages (pagesLoop pf (List.range' 1 (ceilDiv pd.total pd.urls.length))
          { calls := [1], pages := [] }).pages) [] s)

/-- Modelled from the spec: the monthly call budget of the rate-quota
store (spec §6, "1000/month in the reference deployment").  No quota
code exists in `src/vcard_grabber.py`; the quota belongs to the advanced
script variant the specification was written from. -/
def quotaLimit : Nat := 1000

/-- Modelled from the spec: the persisted quota counter
`{month: "YYYY-MM", calls: integer}` (spec §6). -/
structure QuotaState where
  month : String
  calls : Nat
deriving DecidableEq, Repr

/-- Modelled from the spec: the counter resets when the wall-clock month
changes (spec §6). -/
def rolloverQ (now : String) (q : QuotaState) : QuotaState :=
  if q.month = now then q else { month := now, calls := 0 }

/-- Modelled from the spec: `try_consume() -> bool` — spend one unit of
the monthly quota if any budget remains (spec §6 and §9). -/
def tryConsume (now : String) (q : QuotaState) : Bool × QuotaState :=
  let q := rolloverQ now q
  if q.calls < quotaLimit then (true, { q with calls := q.calls + 1 }) else (false, q)

/-- Modelled from the spec: the quota-guarded pagination walker (spec
§4.1): before every page fetch the quota is consulted; if it is
exhausted the whole run aborts before issuing the call.  Returns the
page numbers actually fetched, the final quota state, and whether the
run aborted. -/
def quotaWalk (now : String) : List Nat → QuotaState → List Nat × QuotaState × Bool
  | [], q => ([], q, false)
  | p :: rest, q =>
    match tryConsume now q with
    | (false, q') => ([], q', true)
    | (true, q') =>
      let r := quotaWalk now rest q'
      (p :: r.1, r.2.1, r.2.2)

/-- Which lines feed the `EMAIL` branch of `parse_vcard`'s `elif` chain,
and with which value: a line reaches the branch when none of the earlier
tags match, its upper-cased stripped form starts with `EMAIL`, and it
contains a colon. -/
def emailHit (raw : String) : Option String :=
  if fieldHit "FN:" raw then none
  else if fieldHit "ORG:" raw then none
  else if fieldHit "ADR" raw then none
  else if fieldHit "TEL" raw then none
  else if fieldHit "EMAIL" raw then
    (if (sTrim raw).data.contains ':' then some (sTrim (afterColon (sTrim raw))) else none)
  else none

/-- All e-mail values a file contributes, in line order. -/
def emailValuesOf (ls : List String) : List String :=
  ls.filterMap emailHit

/-- The accumulation step of lines 272-275: start the field or append
with `", "`. -/
def pyStep (acc v : String) : String :=
  if acc = "" then v else acc ++ ", " ++ v

/-- Accumulate a list of values onto an existing field value. -/
def pyJoinFrom (acc : String) (vs : List String) : String :=
  vs.foldl pyStep acc

/-- Accumulate a list of values onto the empty initial field. -/
def pyJoin (vs : List String) : String :=
  pyJoinFrom "" vs

/-- The page numbers a whole run passes to `get_search_page`, as a
function of the first page only: the count probe plus the loop over
`1..ceil(total/per_page)`. -/
def plannedCalls (o : Option PageData) : List Nat :=
  match o with
  | none => [1]
  | some pd =>
    if pd.total = 0 then [1]
    else if pd.urls.length = 0 then [1]
    else 1 :: List.range' 1 (ceilDiv pd.total pd.urls.length)

/-- Ten detail URLs, a full result page. -/
def u10 : List String := List.replicate 10 "/tel/a"

/-- Five detail URLs, a short last page. -/
def u5 : List String := List.replicate 5 "/tel/b"

/-- A remote source reporting 25 total results, 10 per full page: pages
1 and 2 are full, page 3 carries the last 5 records. -/
def src25 : Nat → Option PageData := fun p =>
  if p = 1 then some ⟨25, u10⟩
  else if p = 2 then some ⟨25, u10⟩
  else if p = 3 then some ⟨25, u5⟩
  else none

/-- Like `src25` but page 2 returns zero records. -/
def src25z : Nat → Option PageData := fun p =>
  if p = 2 then some ⟨25, []⟩ else src25 p

/-- Like `src25` but the fetch of page 2 fails. -/
def srcFail2 : Nat → Option PageData := fun p =>
  if p = 2 then none else src25 p

/-- Two detail pages, each with a vCard link. -/
def gD5 : String → Option (Option String) := fun d =>
  if d = "d1" then some (some "/tel/vcard/a.vcf")
  else if d = "d2" then some (some "/tel/vcard/b.vcf")
  else none

/-- The download of `a.vcf` fails (transport error); `b.vcf`
succeeds. -/
def dV5 : String → Option String := fun v =>
  if v = "/tel/vcard/b.vcf" then some "FN:B\nEMAIL:b@y.ch" else none

/-- An empty query/location folder. -/
def emptyDisk : DiskState := ⟨[], [], [], []⟩

/-- The disk state after processing `d1` (whose download fails) and
`d2` (which succeeds) from an empty folder. -/
def st5 : DiskState := processGo gD5 dV5 ["d1", "d2"] [] emptyDisk

/-! ## Helper lemmas -/

lemma contains_true_iff {α : Type} [BEq α] [LawfulBEq α] (l : List α) (x : α) :
    l.contains x = true ↔ x ∈ l := by
  simp [List.contains, List.elem_iff]

lemma processLine_filename (d : VRecord) (raw : String) :
    (processLine d raw).filename = d.filename := by
  simp only [processLine]
  repeat' split
  all_goals rfl

lemma parseVCardLines_filename (ls : List String) :
    ∀ d : VRecord, (parseVCardLines d ls).filename = d.filename := by
  induction ls with
  | nil => intro d; rfl
  | cons l t ih =>
    intro d
    simpa [parseVCardLines, processLine_filename] using ih (processLine d l)

lemma processLine_keep_fullName (d : VRecord) (raw : String)
    (h : fieldHit "FN:" raw = false) : (processLine d raw).fullName = d.fullName := by
  simp only [processLine]
  repeat' split
  all_goals first | rfl | simp_all

lemma processLine_keep_organization (d : VRecord) (raw : String)
    (h : fieldHit "ORG:" raw = false) : (processLine d raw).organization = d.organization := by
  simp only [processLine]
  repeat' split
  all_goals first | rfl | simp_all

lemma processLine_keep_address (d : VRecord) (raw : String)
    (h : fieldHit "ADR" raw = false) : (processLine d raw).address = d.address := by
  simp only [processLine]
  repeat' split
  all_goals first | rfl | simp_all

lemma processLine_keep_telephone (d : VRecord) (raw : String)
    (h : fieldHit "TEL" raw = false) : (processLine d raw).telephone = d.telephone := by
  simp only [processLine]
  repeat' split
  all_goals first | rfl | simp_all

lemma processLine_keep_email (d : VRecord) (raw : String)
    (h : fieldHit "EMAIL" raw = false) : (processLine d raw).email = d.email := by
  simp only [processLine]
  repeat' split
  all_goals first | rfl | simp_all

lemma processLine_keep_role (d : VRecord) (raw : String)
    (h : fieldHit "ROLE:" raw = false) : (processLine d raw).role = d.role := by
  simp only [processLine]
  repeat' split
  all_goals first | rfl | simp_all

lemma processLine_keep_url (d : VRecord) (raw : String)
    (h : fieldHit "URL:" raw = false) : (processLine d raw).url = d.url := by
  simp only [processLine]
  repeat' split
  all_goals first | rfl | simp_all

lemma parseVCardLines_keep (get : VRecord → String) (tag : String)
    (hstep : ∀ d raw, fieldHit tag raw = false → get (processLine d raw) = get d)
    (ls : List String) :
    ∀ d : VRecord, (∀ l ∈ ls, fieldHit tag l = false) →
      get (parseVCardLines d ls) = get d := by
  induction ls with
  | nil => intro d _; rfl
  | cons l t ih =>
    intro d h
    have h1 : fieldHit tag l = false := h l (List.mem_cons_self l t)
    have h2 := ih (processLine d l) (fun x hx => h x (List.mem_cons_of_mem l hx))
    calc get (parseVCardLines d (l :: t))
        = get (parseVCardLines (processLine d l) t) := rfl
      _ = get (processLine d l) := h2
      _ = get d := hstep d l h1

lemma processLine_email_step (d : VRecord) (raw : String) :
    (processLine d raw).email =
      (match emailHit raw with
       | none => d.email
       | some v => pyStep d.email v) := by
  simp only [processLine, emailHit, pyStep]
  repeat' split
  all_goals first | rfl | simp_all

lemma parseVCardLines_email (ls : List String) :
    ∀ d : VRecord, (parseVCardLines d ls).email = pyJoinFrom d.email (emailValuesOf ls) := by
  induction ls with
  | nil => intro d; rfl
  | cons l t ih =>
    intro d
    have h1 : parseVCardLines d (l :: t) = parseVCardLines (processLine d l) t := rfl
    cases he : emailHit l with
    | none =>
      rw [h1, ih (processLine d l), processLine_email_step, he]
      simp [emailValuesOf, List.filterMap_cons, he]
    | some v =>
      rw [h1, ih (processLine d l), processLine_email_step, he]
      simp [emailValuesOf, List.filterMap_cons, he, pyJoinFrom, List.foldl_cons]

/-! ## Claims -/

/-- Claim C2, counterexample: `parse_vcard` does not keep only the first
labeled e-mail entry — for a vCard with two `EMAIL` lines the stored
field is the `", "`-join of both values, not the first value. -/
theorem C2_first_email_only_counterexample :
    (parseNamed "e.vcf" "EMAIL:a@x.ch\nEMAIL:b@y.ch").email = "a@x.ch, b@y.ch"
    ∧ ¬((parseNamed "e.vcf" "EMAIL:a@x.ch\nEMAIL:b@y.ch").email = "a@x.ch") := by
  decide

/-- Claim C2 as amended: normalization accumulates every labeled e-mail
entry — the stored `Email` field of a parsed vCard is the `", "`-join
(in line order) of the values of all lines that reach the `EMAIL`
branch, so it can contain any number of e-mail strings. -/
theorem C2_email_accumulates (fp : String) (ls : List String) :
    (parseVCardLines (defaultVRecord fp) ls).email = pyJoin (emailValuesOf ls) := by
  simpa [pyJoin, defaultVRecord] using parseVCardLines_email ls (defaultVRecord fp)

/-- Claim C3, counterexample: `parse_vcard` joins all non-empty address
components with `", "` uniformly, so the spec's expected strings
`"Bahnhofstrasse 10, 8000 Zürich"` and `"8000 Zürich"` do not match the
computed `"Bahnhofstrasse, 10, 8000, Zürich"` and `"8000, Zürich"`. -/
theorem C3_address_separators_counterexample :
    (parseNamed "a.vcf" "ADR:Bahnhofstrasse;10;8000;Zürich").address
        = "Bahnhofstrasse, 10, 8000, Zürich"
    ∧ ¬((parseNamed "a.vcf" "ADR:Bahnhofstrasse;10;8000;Zürich").address
        = "Bahnhofstrasse 10, 8000 Zürich")
    ∧ (parseNamed "a.vcf" "ADR:;;8000;Zürich").address = "8000, Zürich"
    ∧ ¬((parseNamed "a.vcf" "ADR:;;8000;Zürich").address = "8000 Zürich") := by
  decide

/-- Claim C3 as amended: address assembly joins the non-empty
`;`-separated components with the single separator `", "` (yielding
`"Bahnhofstrasse, 10, 8000, Zürich"` resp. `"8000, Zürich"` on the
spec's examples); empty components are dropped, so no stray separator
appears — inserting an empty component anywhere leaves the result
unchanged. -/
theorem C3_address_joins_nonempty_parts :
    (parseNamed "a.vcf" "ADR:Bahnhofstrasse;10;8000;Zürich").address
        = "Bahnhofstrasse, 10, 8000, Zürich"
    ∧ (parseNamed "a.vcf" "ADR:;;8000;Zürich").address = "8000, Zürich"
    ∧ ∀ (xs ys : List String), joinAdrParts (xs ++ "" :: ys) = joinAdrParts (xs ++ ys) := by
  refine ⟨by decide, by decide, ?_⟩
  intro xs ys
  have h : (("" : String) == "") = true := rfl
  simp [joinAdrParts, List.filter_append, List.filter_cons, h]

/-- Claim C10: `parse_vcard` is total and returns the eight-key record
(`VRecord`); reading failure (`content = none`) yields the default
record, the `Filename` field is always the basename of the path, and
every other field stays the empty string when no line of the file
carries the corresponding tag. -/
theorem C10_parse_vcard_total_defaults (fp : String) (c : Option String) (ls : List String) :
    parseVCardFile fp none = defaultVRecord (basenameOf fp)
    ∧ (parseVCardFile fp c).filename = basenameOf fp
    ∧ ((∀ l ∈ ls, fieldHit "FN:" l = false) →
        (parseVCardLines (defaultVRecord (basenameOf fp)) ls).fullName = "")
    ∧ ((∀ l ∈ ls, fieldHit "ORG:" l = false) →
        (parseVCardLines (defaultVRecord (basenameOf fp)) ls).organization = "")
    ∧ ((∀ l ∈ ls, fieldHit "ADR" l = false) →
        (parseVCardLines (defaultVRecord (basenameOf fp)) ls).address = "")
    ∧ ((∀ l ∈ ls, fieldHit "TEL" l = false) →
        (parseVCardLines (defaultVRecord (basenameOf fp)) ls).telephone = "")
    ∧ ((∀ l ∈ ls, fieldHit "EMAIL" l = false) →
        (parseVCardLines (defaultVRecord (basenameOf fp)) ls).email = "")
    ∧ ((∀ l ∈ ls, fieldHit "ROLE:" l = false) →
        (parseVCardLines (defaultVRecord (basenameOf fp)) ls).role = "")
    ∧ ((∀ l ∈ ls, fieldHit "URL:" l = false) →
        (parseVCardLines (defaultVRecord (basenameOf fp)) ls).url = "") := by
  refine ⟨rfl, ?_, ?_, ?_, ?_, ?_, ?_, ?_, ?_⟩
  · cases c with
    | none => rfl
    | some s => exact parseVCardLines_filename (sSplit '\n' s) (defaultVRecord (basenameOf fp))
  · exact fun h => parseVCardLines_keep (fun r => r.fullName) "FN:" processLine_keep_fullName ls _ h
  · exact fun h => parseVCardLines_keep (fun r => r.organization) "ORG:" processLine_keep_organization ls _ h
  · exact fun h => parseVCardLines_keep (fun r => r.address) "ADR" processLine_keep_address ls _ h
  · exact fun h => parseVCardLines_keep (fun r => r.telephone) "TEL" processLine_keep_telephone ls _ h
  · exact fun h => parseVCardLines_keep (fun r => r.email) "EMAIL" processLine_keep_email ls _ h
  · exact fun h => parseVCardLines_keep (fun r => r.role) "ROLE:" processLine_keep_role ls _ h
  · exact fun h => parseVCardLines_keep (fun r => r.url) "URL:" processLine_keep_url ls _ h

/-- Witness for C10 at a concrete path and file. -/
theorem C10_parse_vcard_total_defaults_witness :
    (parseVCardLines (defaultVRecord (basenameOf "dir/card.vcf"))
        ["BEGIN:VCARD", "VERSION:3.0", "END:VCARD"]).fullName = ""
    ∧ (parseVCardLines (defaultVRecord (basenameOf "dir/card.vcf"))
        ["BEGIN:VCARD", "VERSION:3.0", "END:VCARD"]).organization = ""
    ∧ (parseVCardLines (defaultVRecord (basenameOf "dir/card.vcf"))
        ["BEGIN:VCARD", "VERSION:3.0", "END:VCARD"]).address = ""
    ∧ (parseVCardLines (defaultVRecord (basenameOf "dir/card.vcf"))
        ["BEGIN:VCARD", "VERSION:3.0", "END:VCARD"]).telephone = ""
    ∧ (parseVCardLines (defaultVRecord (basenameOf "dir/card.vcf"))
        ["BEGIN:VCARD", "VERSION:3.0", "END:VCARD"]).email = ""
    ∧ (parseVCardLines (defaultVRecord (basenameOf "dir/card.vcf"))
        ["BEGIN:VCARD", "VERSION:3.0", "END:VCARD"]).role = ""
    ∧ (parseVCardLines (defaultVRecord (basenameOf "dir/card.vcf"))
        ["BEGIN:VCARD", "VERSION:3.0", "END:VCARD"]).url = "" := by
  have h := C10_parse_vcard_total_defaults "dir/card.vcf" (some "BEGIN:VCARD")
    ["BEGIN:VCARD", "VERSION:3.0", "END:VCARD"]
  exact ⟨h.2.2.1 (by decide), h.2.2.2.1 (by decide), h.2.2.2.2.1 (by decide),
    h.2.2.2.2.2.1 (by decide), h.2.2.2.2.2.2.1 (by decide),
    h.2.2.2.2.2.2.2.1 (by decide), h.2.2.2.2.2.2.2.2 (by decide)⟩

lemma pagesLoop_calls (f : Nat → Option PageData) (ps : List Nat) :
    ∀ st : SearchRun, (pagesLoop f ps st).calls = st.calls ++ ps := by
  induction ps with
  | nil => intro st; simp [pagesLoop]
  | cons p rest ih =>
    intro st
    cases h : f p <;> simp [pagesLoop, h, ih]

lemma pagesLoop_pages_mono (f : Nat → Option PageData) (ps : List Nat) :
    ∀ (st : SearchRun) (x : Nat × List String), x ∈ st.pages → x ∈ (pagesLoop f ps st).pages := by
  induction ps with
  | nil => intro st x hx; simpa [pagesLoop] using hx
  | cons p rest ih =>
    intro st x hx
    cases h : f p with
    | none => simp only [pagesLoop, h]; exact ih _ x hx
    | some pd =>
      simp only [pagesLoop, h]
      exact ih _ x (by simp [hx])

lemma pagesLoop_pages_mem (f : Nat → Option PageData) (ps : List Nat) :
    ∀ (st : SearchRun) (p : Nat) (pd : PageData), p ∈ ps → f p = some pd →
      (p, pd.urls) ∈ (pagesLoop f ps st).pages := by
  induction ps with
  | nil => intro st p pd hp; exact absurd hp (List.not_mem_nil p)
  | cons q rest ih =>
    intro st p pd hp hf
    rcases List.mem_cons.mp hp with rfl | hp'
    · rw [pagesLoop, hf]
      exact pagesLoop_pages_mono f rest _ _ (by simp)
    · cases h : f q with
      | none => simp only [pagesLoop, h]; exact ih _ p pd hp' hf
      | some pd' => simp only [pagesLoop, h]; exact ih _ p pd hp' hf

lemma runSearch_calls (f : Nat → Option PageData) :
    (runSearch f).calls = plannedCalls (f 1) := by
  cases h : f 1 with
  | none => simp [runSearch, plannedCalls, h]
  | some pd =>
    simp only [runSearch, plannedCalls, h]
    split_ifs <;> simp [pagesLoop_calls]

/-- Claim C1, counterexample: against a source reporting `total = 25`
with 10 records per full page, the run issues 4 calls, not 3 — the
count probe plus the loop over page numbers 1, 2, 3 — so the call
parameters are `[1, 1, 2, 3]`, not positions `[1, 11, 21]`; and a page
returning zero records (`src25z`) does not stop the loop either. -/
theorem C1_position_walker_counterexample :
    (runSearch src25).calls = [1, 1, 2, 3]
    ∧ (runSearch src25).calls.length = 4
    ∧ ¬((runSearch src25).calls = [1, 11, 21])
    ∧ (runSearch src25z).calls = [1, 1, 2, 3] := by
  decide

/-- Claim C1 as amended: the walker fixes the page schedule from the
first page alone — it re-fetches page 1 and then walks the fixed page
numbers `1..ceil(total/per_page)`, advancing by one page per call
regardless of how many records each later call returns and never
stopping early on an empty or failed page; for `total = 25` with 10
records per full page the issued calls are `[1, 1, 2, 3]`. -/
theorem C1_page_number_walker :
    (runSearch src25).calls = [1, 1, 2, 3]
    ∧ ∀ (f g : Nat → Option PageData), f 1 = g 1 →
        (runSearch f).calls = (runSearch g).calls := by
  refine ⟨by decide, ?_⟩
  intro f g h
  rw [runSearch_calls, runSearch_calls, h]

/-- Witness for C1 as amended: `src25z` differs from `src25` on pages
2 and 3 yet produces the same call sequence. -/
theorem C1_page_number_walker_witness :
    (runSearch src25).calls = (runSearch src25z).calls :=
  C1_page_number_walker.2 src25 src25z (by decide)

/-- Claim C6, counterexample: with the fetch of page 2 failing, the
walker still issues the fetch of page 3 (calls `[1, 1, 2, 3]`) and
still processes page 3's records — it does not stop paginating at the
failure. -/
theorem C6_stop_on_failure_counterexample :
    (runSearch srcFail2).calls = [1, 1, 2, 3]
    ∧ (runSearch srcFail2).pages.map Prod.fst = [1, 3] := by
  decide

/-- Claim C6 as amended: a failed page fetch is logged and skipped —
the loop always attempts every scheduled page regardless of failures,
and every successfully fetched page's records are kept, whether the
page comes before or after a failure. -/
theorem C6_failed_page_skipped (f : Nat → Option PageData) (ps : List Nat) (st : SearchRun) :
    (pagesLoop f ps st).calls = st.calls ++ ps
    ∧ ∀ (p : Nat) (pd : PageData), p ∈ ps → f p = some pd →
        (p, pd.urls) ∈ (pagesLoop f ps st).pages :=
  ⟨pagesLoop_calls f ps st, fun p pd hp hf => pagesLoop_pages_mem f ps st p pd hp hf⟩

/-- Witness for C6 as amended: page 3, fetched after the failure of
page 2, is kept. -/
theorem C6_failed_page_skipped_witness :
    (3, u5) ∈ (pagesLoop srcFail2 [1, 2, 3] ⟨[1], []⟩).pages :=
  (C6_failed_page_skipped srcFail2 [1, 2, 3] ⟨[1], []⟩).2 3 ⟨25, u5⟩ (by decide) (by decide)

/-- Claim C7 (the quota store is modelled from the spec; `src/` has no
quota code): when the monthly quota is exhausted, the walker issues no
page fetch at all and the whole run aborts before the first call. -/
theorem C7_quota_exhaustion_aborts (now : String) (q : QuotaState) (pages : List Nat)
    (h : quotaLimit ≤ (rolloverQ now q).calls) :
    (quotaWalk now pages q).1 = []
    ∧ (pages = [] ∨ (quotaWalk now pages q).2.2 = true) := by
  cases pages with
  | nil => exact ⟨rfl, Or.inl rfl⟩
  | cons p rest =>
    have hc : ¬((rolloverQ now q).calls < quotaLimit) := not_lt.mpr h
    refine ⟨?_, Or.inr ?_⟩ <;> simp [quotaWalk, tryConsume, hc]

/-- Witness for C7 at a concrete exhausted quota state. -/
theorem C7_quota_exhaustion_aborts_witness :
    (quotaWalk "2026-10" [1, 2, 3] ⟨"2026-10", 1000⟩).1 = []
    ∧ ([1, 2, 3] = ([] : List Nat)
        ∨ (quotaWalk "2026-10" [1, 2, 3] ⟨"2026-10", 1000⟩).2.2 = true) :=
  C7_quota_exhaustion_aborts "2026-10" ⟨"2026-10", 1000⟩ [1, 2, 3] (by decide)

lemma moveGo_eq (l : List (String × String)) :
    moveGo l = (l.filter (fun f => !(shouldMove f)), l.filter shouldMove) := by
  induction l with
  | nil => rfl
  | cons f rest ih =>
    cases h : shouldMove f <;> simp [moveGo, ih, List.filter_cons, h]

lemma filter_twice {α : Type} (p : α → Bool) (l : List α) :
    (l.filter p).filter p = l.filter p := by
  induction l with
  | nil => rfl
  | cons a t ih => cases h : p a <;> simp [List.filter_cons, h, ih]

lemma movePhase_main (s : DiskState) :
    (movePhase s).main = s.main.filter (fun f => !(shouldMove f)) := by
  simp [movePhase, moveGo_eq]

lemma movePhase_names_mono (s : DiskState) (x : String) (hx : x ∈ namesOf s) :
    x ∈ namesOf (movePhase s) := by
  simp only [namesOf, movePhase, moveGo_eq, List.mem_append, List.mem_map] at hx ⊢
  rcases hx with ⟨f, hf, rfl⟩ | ⟨f, hf, rfl⟩
  · cases h : shouldMove f with
    | false => exact Or.inl ⟨f, List.mem_filter.mpr ⟨hf, by simp [h]⟩, rfl⟩
    | true => exact Or.inr ⟨f, Or.inr (List.mem_filter.mpr ⟨hf, h⟩), rfl⟩
  · exact Or.inr ⟨f, Or.inl hf, rfl⟩

/-- Claim C4, counterexample: classification is not determined by the
parsed e-mail field — a vCard whose only mention of `email` is inside a
URL has an empty `Email` field, yet its file content passes the
substring test and the file stays in the main (has-e-mail) folder, so
it lands in the with-e-mail CSV with an empty e-mail column. -/
theorem C4_email_field_classification_counterexample :
    hasEmailContent "URL:http://example.ch/email" = true
    ∧ (parseNamed "x.vcf" "URL:http://example.ch/email").email = ""
    ∧ (movePhase ⟨[("x.vcf", "URL:http://example.ch/email")], [], [], []⟩).main.map Prod.fst
        = ["x.vcf"] := by
  decide

/-- Claim C4 as amended: the move pass partitions the `.vcf` files of
the main folder by the substring test `"email" in content.lower()` —
each such file ends up in exactly one of the kept (with-e-mail) and
moved (without-e-mail) lists, and which one is determined solely by
that substring test on the file content, not by the parsed e-mail
field. -/
theorem C4_partition_by_substring (files : List (String × String)) (f : String × String)
    (hf : f ∈ files) (hv : isVcf f.1 = true) :
    (f ∈ (moveGo files).1 ↔ hasEmailContent f.2 = true)
    ∧ (f ∈ (moveGo files).2 ↔ hasEmailContent f.2 = false)
    ∧ ¬(f ∈ (moveGo files).1 ∧ f ∈ (moveGo files).2) := by
  cases he : hasEmailContent f.2 <;>
    simp [moveGo_eq, List.mem_filter, shouldMove, hf, hv, he]

/-- Witness for C4 at a concrete one-file folder. -/
theorem C4_partition_by_substring_witness :
    (("x.vcf", "EMAIL:a@b.ch") ∈ (moveGo [("x.vcf", "EMAIL:a@b.ch")]).1
      ↔ hasEmailContent "EMAIL:a@b.ch" = true)
    ∧ (("x.vcf", "EMAIL:a@b.ch") ∈ (moveGo [("x.vcf", "EMAIL:a@b.ch")]).2
      ↔ hasEmailContent "EMAIL:a@b.ch" = false)
    ∧ ¬(("x.vcf", "EMAIL:a@b.ch") ∈ (moveGo [("x.vcf", "EMAIL:a@b.ch")]).1
        ∧ ("x.vcf", "EMAIL:a@b.ch") ∈ (moveGo [("x.vcf", "EMAIL:a@b.ch")]).2) :=
  C4_partition_by_substring [("x.vcf", "EMAIL:a@b.ch")] ("x.vcf", "EMAIL:a@b.ch")
    (by decide) (by decide)

/-- Claim C5, counterexample: when the vCard download of record `d1`
fails, the record does not appear in the snapshot at all — no file is
saved (only `d2`'s `b.vcf` is on disk), its name appears nowhere, and
`links.txt` has no entry for it; the run does continue with `d2`. -/
theorem C5_unreachable_attachment_counterexample :
    (movePhase st5).main.map Prod.fst = ["b.vcf"]
    ∧ ¬("a.vcf" ∈ namesOf (movePhase st5))
    ∧ (movePhase st5).links = [("b.vcf", "d2")] := by
  decide

/-- Claim C5 as amended: a failed vCard download is logged and the loop
continues with the remaining detail records, but the failed record
leaves the disk unchanged — no vCard file, no `links.txt` entry, hence
no row in any generated CSV. -/
theorem C5_failed_download_leaves_no_trace (gD : String → Option (Option String))
    (dV : String → Option String) (d v : String) (rest proc : List String) (s : DiskState)
    (h1 : proc.contains d = false) (h2 : gD d = some (some v))
    (h3 : (namesOf s).contains (filenameOf v) = false) (h4 : dV v = none) :
    processGo gD dV (d :: rest) proc s = processGo gD dV rest (d :: proc) s := by
  have h1' : d ∉ proc := fun hm => by simp at h1; exact h1 hm
  have h3' : filenameOf v ∉ namesOf s := fun hm => by simp at h3; exact h3 hm
  simp [processGo, h1', h2, h3', h4]

/-- Witness for C5 as amended at the concrete failing record `d1`. -/
theorem C5_failed_download_leaves_no_trace_witness :
    processGo gD5 dV5 ["d1", "d2"] [] emptyDisk = processGo gD5 dV5 ["d2"] ["d1"] emptyDisk :=
  C5_failed_download_leaves_no_trace gD5 dV5 "d1" "/tel/vcard/a.vcf" ["d2"] [] emptyDisk
    (by decide) (by decide) (by decide) (by decide)

lemma splitCh_ne_nil (c : Char) (l : List Char) : splitCh c l ≠ [] := by
  cases l with
  | nil => simp [splitCh]
  | cons x t =>
    rcases hs : splitCh c t with _ | ⟨h0, r⟩
    · simp [splitCh, hs]
    · by_cases hx : (x == c) = true <;> simp [splitCh, hs, hx]

lemma splitCh_parts_no_sep (c : Char) :
    ∀ (l : List Char) (xs : List Char), xs ∈ splitCh c l → c ∉ xs := by
  intro l
  induction l with
  | nil =>
    intro xs h
    simp [splitCh] at h
    simp [h]
  | cons x t ih =>
    intro xs h
    rcases hs : splitCh c t with _ | ⟨h0, r⟩
    · exact absurd hs (splitCh_ne_nil c t)
    · by_cases hx : (x == c) = true
      · simp only [splitCh, hs, if_pos hx] at h
        rcases List.mem_cons.mp h with rfl | h'
        · simp
        · exact ih xs (by rw [hs]; exact h')
      · simp only [splitCh, hs, if_neg hx] at h
        rcases List.mem_cons.mp h with rfl | h'
        · intro hc
          rcases List.mem_cons.mp hc with rfl | hc'
          · exact hx (by simp)
          · exact ih h0 (by rw [hs]; exact List.mem_cons_self h0 r) hc'
        · exact ih xs (by rw [hs]; exact List.mem_cons_of_mem h0 h')

lemma lastD_cases {α : Type} : ∀ (l : List α) (d : α), lastD l d = d ∨ lastD l d ∈ l
  | [], _ => Or.inl rfl
  | x :: t, d =>
    match lastD_cases t x with
    | Or.inl h =>
      Or.inr (by rw [show lastD (x :: t) d = lastD t x from rfl, h]; exact List.mem_cons_self x t)
    | Or.inr h =>
      Or.inr (by rw [show lastD (x :: t) d = lastD t x from rfl]; exact List.mem_cons_of_mem x h)

/-- Claim C8, counterexample: the local filename is the bare basename of
the URL path — the filesystem-unsafe `':'` is kept, not replaced by
`'_'`, and a name without the `.vcf` extension gets no fallback name and
no appended extension. -/
theorem C8_sanitization_counterexample :
    filenameOf "/tel/vcard/John:Doe.vcf?x=1" = "John:Doe.vcf"
    ∧ ':' ∈ (filenameOf "/tel/vcard/John:Doe.vcf?x=1").data
    ∧ filenameOf "John/Doe:Corp.vcf" = "Doe:Corp.vcf"
    ∧ filenameOf "/tel/vcard/download?id=7" = "download"
    ∧ sEnds (filenameOf "/tel/vcard/download?id=7") ".vcf" = false := by
  decide

/-- Claim C8 as amended: the filename is the last segment of the URL's
path with query parameters stripped — so it never contains the path
separator `'/'` — but no other character is replaced and no extension
fallback is applied. -/
theorem C8_basename_of_path :
    filenameOf "/tel/vcard/abc.vcf?x=1" = "abc.vcf"
    ∧ filenameOf "John/Doe:Corp.vcf" = "Doe:Corp.vcf"
    ∧ ∀ u : String, '/' ∉ (filenameOf u).data := by
  refine ⟨by decide, by decide, ?_⟩
  intro u
  show '/' ∉ lastD (splitCh '/' (((splitCh '#' u.data).headD []).takeWhile (fun c => !(c == '?')))) []
  rcases lastD_cases (splitCh '/' (((splitCh '#' u.data).headD []).takeWhile (fun c => !(c == '?')))) [] with h | h
  · rw [h]; simp
  · exact splitCh_parts_no_sep '/' _ _ h

lemma mem_namesOf_extend (s : DiskState) (fn c d x : String) :
    x ∈ namesOf { s with main := s.main ++ [(fn, c)], links := s.links ++ [(fn, d)] } ↔
      (x ∈ namesOf s ∨ x = fn) := by
  simp [namesOf]
  tauto

lemma processGo_names_mono (gD : String → Option (Option String)) (dV : String → Option String) :
    ∀ (ds proc : List String) (s : DiskState) (x : String),
      x ∈ namesOf s → x ∈ namesOf (processGo gD dV ds proc s) := by
  intro ds
  induction ds with
  | nil => intro proc s x hx; simpa [processGo] using hx
  | cons d rest ih =>
    intro proc s x hx
    by_cases hdup : d ∈ proc
    · have e : processGo gD dV (d :: rest) proc s = processGo gD dV rest proc s := by
        simp [processGo, hdup]
      rw [e]; exact ih proc s x hx
    · cases hg : gD d with
      | none =>
        have e : processGo gD dV (d :: rest) proc s = processGo gD dV rest (d :: proc) s := by
          simp [processGo, hdup, hg]
        rw [e]; exact ih _ s x hx
      | some ov =>
        cases ov with
        | none =>
          have e : processGo gD dV (d :: rest) proc s = processGo gD dV rest (d :: proc) s := by
            simp [processGo, hdup, hg]
          rw [e]; exact ih _ s x hx
        | some v =>
          by_cases he : filenameOf v ∈ namesOf s
          · have e : processGo gD dV (d :: rest) proc s = processGo gD dV rest (d :: proc) s := by
              simp [processGo, hdup, hg, he]
            rw [e]; exact ih _ s x hx
          · cases hd : dV v with
            | none =>
              have e : processGo gD dV (d :: rest) proc s = processGo gD dV rest (d :: proc) s := by
                simp [processGo, hdup, hg, he, hd]
              rw [e]; exact ih _ s x hx
            | some c =>
              have e : processGo gD dV (d :: rest) proc s =
                  processGo gD dV rest (d :: proc)
                    { s with main := s.main ++ [(filenameOf v, c)],
                             links := s.links ++ [(filenameOf v, d)] } := by
                simp [processGo, hdup, hg, he, hd]
              rw [e]
              exact ih _ _ x ((mem_namesOf_extend s (filenameOf v) c d x).mpr (Or.inl hx))

lemma processGo_stable (gD : String → Option (Option String)) (dV : String → Option String) :
    ∀ (ds proc : List String) (s t : DiskState),
      (∀ x, x ∈ namesOf (processGo gD dV ds proc s) → x ∈ namesOf t) →
      processGo gD dV ds proc t = t := by
  intro ds
  induction ds with
  | nil => intro proc s t _; rfl
  | cons d rest ih =>
    intro proc s t H
    by_cases hdup : d ∈ proc
    · have es : processGo gD dV (d :: rest) proc s = processGo gD dV rest proc s := by
        simp [processGo, hdup]
      have et : processGo gD dV (d :: rest) proc t = processGo gD dV rest proc t := by
        simp [processGo, hdup]
      rw [et]
      exact ih proc s t (fun x hx => H x (es.symm ▸ hx))
    · cases hg : gD d with
      | none =>
        have es : processGo gD dV (d :: rest) proc s = processGo gD dV rest (d :: proc) s := by
          simp [processGo, hdup, hg]
        have et : processGo gD dV (d :: rest) proc t = processGo gD dV rest (d :: proc) t := by
          simp [processGo, hdup, hg]
        rw [et]
        exact ih _ s t (fun x hx => H x (es.symm ▸ hx))
      | some ov =>
        cases ov with
        | none =>
          have es : processGo gD dV (d :: rest) proc s = processGo gD dV rest (d :: proc) s := by
            simp [processGo, hdup, hg]
          have et : processGo gD dV (d :: rest) proc t = processGo gD dV rest (d :: proc) t := by
            simp [processGo, hdup, hg]
          rw [et]
          exact ih _ s t (fun x hx => H x (es.symm ▸ hx))
        | some v =>
          by_cases he : filenameOf v ∈ namesOf s
          · have es : processGo gD dV (d :: rest) proc s = processGo gD dV rest (d :: proc) s := by
              simp [processGo, hdup, hg, he]
            have hvt : filenameOf v ∈ namesOf t :=
              H _ (es.symm ▸ processGo_names_mono gD dV rest (d :: proc) s _ he)
            have et : processGo gD dV (d :: rest) proc t = processGo gD dV rest (d :: proc) t := by
              simp [processGo, hdup, hg, hvt]
            rw [et]
            exact ih _ s t (fun x hx => H x (es.symm ▸ hx))
          · cases hd : dV v with
            | none =>
              have es : processGo gD dV (d :: rest) proc s = processGo gD dV rest (d :: proc) s := by
                simp [processGo, hdup, hg, he, hd]
              have H' : ∀ x, x ∈ namesOf (processGo gD dV rest (d :: proc) s) → x ∈ namesOf t :=
                fun x hx => H x (es.symm ▸ hx)
              by_cases ht : filenameOf v ∈ namesOf t
              · have et : processGo gD dV (d :: rest) proc t = processGo gD dV rest (d :: proc) t := by
                  simp [processGo, hdup, hg, ht]
                rw [et]; exact ih _ s t H'
              · have et : processGo gD dV (d :: rest) proc t = processGo gD dV rest (d :: proc) t := by
                  simp [processGo, hdup, hg, ht, hd]
                rw [et]; exact ih _ s t H'
            | some c =>
              have es : processGo gD dV (d :: rest) proc s =
                  processGo gD dV rest (d :: proc)
                    { s with main := s.main ++ [(filenameOf v, c)],
                             links := s.links ++ [(filenameOf v, d)] } := by
                simp [processGo, hdup, hg, he, hd]
              have hv0 : filenameOf v ∈ namesOf { s with main := s.main ++ [(filenameOf v, c)], links := s.links ++ [(filenameOf v, d)] } :=
                (mem_namesOf_extend s (filenameOf v) c d (filenameOf v)).mpr (Or.inr rfl)
              have hvt : filenameOf v ∈ namesOf t :=
                H _ (es.symm ▸ processGo_names_mono gD dV rest (d :: proc) _ _ hv0)
              have et : processGo gD dV (d :: rest) proc t = processGo gD dV rest (d :: proc) t := by
                simp [processGo, hdup, hg, hvt]
              rw [et]
              exact ih _ _ t (fun x hx => H x (es.symm ▸ hx))

/-- Claim C9: running the embedded pipeline twice against the same
remote (same page source, detail pages and downloads) from any starting
folder yields a byte-identical master snapshot (`vcards.csv`) after the
second run: the second run downloads nothing (every filename already
exists in the main folder or in `keine_email`) and moves nothing (the
e-mail-less files were already moved), so the main folder — and hence
the generated CSV text — is unchanged.  Directory enumeration is
modelled as the deterministic file-list order. -/
theorem C9_master_snapshot_idempotent (pf : Nat → Option PageData)
    (gD : String → Option (Option String)) (dV : String → Option String) (s : DiskState) :
    masterCsv (fullRun pf gD dV (fullRun pf gD dV s)) = masterCsv (fullRun pf gD dV s) := by
  cases hp : pf 1 with
  | none => simp [fullRun, hp]
  | some pd =>
    by_cases h0 : pd.total = 0
    · simp [fullRun, hp, h0]
    · by_cases h1 : pd.urls.length = 0
      · simp [fullRun, hp, h0, h1]
      · have hrun : ∀ u : DiskState, fullRun pf gD dV u =
            movePhase (processGo gD dV
              (detailsOfPages (pagesLoop pf
                (List.range' 1 (ceilDiv pd.total pd.urls.length)) ⟨[1], []⟩).pages) [] u) := by
          intro u
          simp [fullRun, hp, h0, h1]
        simp only [hrun]
        rw [processGo_stable gD dV _ [] s _
          (fun x hx => movePhase_names_mono _ x hx)]
        unfold masterCsv
        simp only [movePhase_main]
        rw [filter_twice]
